import Mathlib

/-!
# EcoBin `DatabaseStorage` — shallow embedding and verification

This file embeds the data-access layer of the EcoBin waste-management
application (`server/storage.ts`, class `DatabaseStorage`) as pure Lean
functions over an explicit database state, and proves the behavioural
properties claimed by the specification.

Modelling conventions:
* Each SQL table is a `List` of row structures; `db.select().from(t).where(p)`
  with a `[x]` destructuring becomes `List.find?`, a multi-row select becomes
  `List.filter`, `db.update(t).set(...).where(p)` becomes `List.map` guarded
  by the predicate, and `db.insert(t).values(v).returning()` appends a row.
* Serial primary keys are drawn from a single fresh-id counter `DB.nextId`.
* `Date.now()` / `new Date()` are passed in as an explicit `now : Nat`
  parameter; `Math.random()` is passed in as the list of base-36 fractional
  digits of its value (see `jsRandomToString36`).
* The shared schema file (`@shared/schema`) is not part of the examined
  sources; row shapes are modelled from the spec (§3 DATA MODEL): `ecoPoints`
  is a per-user integer balance, `eventParticipants` has conflict target
  (eventId, userId), `userChallengeProgress` has conflict target
  (userId, challengeId). The decimal-string columns `quantity` and
  `carbonFootprint` are modelled by their numeric values in `ℚ`.
-/

/-- JavaScript `x || 0` applied to a number `x` that (per the spec data model)
is a non-null integer: `0` is falsy in JS, any other integer is truthy. -/
def jsOr0 (x : Int) : Int := if x = 0 then 0 else x

/-- JavaScript `x || 0` applied to an optional integer field (`undefined` and
`0` are falsy). -/
def jsOr0Opt (x : Option Int) : Int :=
  match x with
  | none => 0
  | some v => jsOr0 v

/-! ## Row types (modelled from the spec, §3 DATA MODEL) -/

/-- Modelled from the spec: `User` row (id, ecoPoints, carbonFootprint), plus
the `email`-like profile data and `updatedAt` touched by `upsertUser`.
`ecoPoints` is "a per-user integer reward balance" (glossary). -/
structure User where
  id : String
  email : Option String
  ecoPoints : Int
  carbonFootprint : Option ℚ
  updatedAt : Nat
  deriving DecidableEq

/-- Modelled from the spec: the upsert payload for Replit-auth users
(identity plus profile fields; the accrued balance is not part of it). -/
structure UpsertUser where
  id : String
  email : Option String
  deriving DecidableEq

/-- Modelled from the spec: `WasteEntry` row
(userId, wasteType, quantity, ecoPointsEarned, createdAt). -/
structure WasteEntry where
  id : Nat
  userId : String
  wasteType : String
  quantity : ℚ
  ecoPointsEarned : Option Int
  createdAt : Nat
  deriving DecidableEq

/-- Insert payload for `createWasteEntry` (`InsertWasteEntry`):
the row minus the generated `id` and `createdAt`. -/
structure InsertWasteEntry where
  userId : String
  wasteType : String
  quantity : ℚ
  ecoPointsEarned : Option Int
  deriving DecidableEq

/-- Modelled from the spec: `PickupSchedule` row (userId, scheduledDate,
status), plus the `completedAt` column set by `updatePickupScheduleStatus`. -/
structure PickupSchedule where
  id : Nat
  userId : String
  scheduledDate : Nat
  status : String
  completedAt : Option Nat
  deriving DecidableEq

/-- Insert payload for `createPickupSchedule` (the row's `completedAt`
starts out unset). -/
structure InsertPickupSchedule where
  userId : String
  scheduledDate : Nat
  status : String
  deriving DecidableEq

/-- Modelled from the spec: `CommunityReport` row (reportType, description,
location, priority, status, createdAt, resolvedAt). -/
structure CommunityReport where
  id : Nat
  reportType : String
  description : String
  location : String
  priority : String
  status : String
  createdAt : Nat
  resolvedAt : Option Nat
  deriving DecidableEq

/-- Insert payload for `createCommunityReport`. -/
structure InsertCommunityReport where
  reportType : String
  description : String
  location : String
  priority : String
  status : String
  deriving DecidableEq

/-- Modelled from the spec: `CleanupEvent` row (eventDate, maxParticipants,
currentParticipants, ecoPointsReward, status). -/
structure CleanupEvent where
  id : Nat
  eventDate : Nat
  maxParticipants : Int
  currentParticipants : Int
  ecoPointsReward : Int
  status : String
  deriving DecidableEq

/-- Insert payload for `createCleanupEvent`. -/
structure InsertCleanupEvent where
  eventDate : Nat
  maxParticipants : Int
  ecoPointsReward : Int
  status : String
  deriving DecidableEq

/-- Modelled from the spec: `eventParticipants` row; the conflict target of
`joinCleanupEvent`'s `onConflictDoNothing` is the pair (eventId, userId). -/
structure EventParticipant where
  eventId : Nat
  userId : String
  deriving DecidableEq

/-- Modelled from the spec: `EcoChallenge` row (progress counters, active
flag, end date). -/
structure EcoChallenge where
  id : Nat
  isActive : Bool
  endDate : Nat
  deriving DecidableEq

/-- Modelled from the spec: `UserChallengeProgress` row; the conflict target
of `updateChallengeProgress` is the pair (userId, challengeId). -/
structure UserChallengeProgressRow where
  id : Nat
  userId : String
  challengeId : Nat
  currentProgress : Int
  createdAt : Nat
  deriving DecidableEq

/-- Modelled from the spec: `Reward` row (ecoPointsCost, active flag,
validity window). -/
structure Reward where
  id : Nat
  ecoPointsCost : Int
  isActive : Bool
  validUntil : Option Nat
  deriving DecidableEq

/-- Modelled from the spec: `UserReward` row
(ecoPointsCost → redemptionCode, expiresAt). -/
structure UserReward where
  id : Nat
  userId : String
  rewardId : Nat
  redemptionCode : String
  expiresAt : Option Nat
  redeemedAt : Nat
  deriving DecidableEq

/-- The relational database state: one list per table plus a fresh-id
counter for serial primary keys. -/
structure DB where
  users : List User
  wasteEntries : List WasteEntry
  pickupSchedules : List PickupSchedule
  communityReports : List CommunityReport
  cleanupEvents : List CleanupEvent
  eventParticipants : List EventParticipant
  ecoChallenges : List EcoChallenge
  userChallengeProgress : List UserChallengeProgressRow
  rewards : List Reward
  userRewards : List UserReward
  nextId : Nat
  deriving DecidableEq

/-! ## Redemption-code generation (storage.ts line 302)

`ECO-${Date.now()}-${Math.random().toString(36).substr(2, 6).toUpperCase()}`

`Math.random()` yields a float in `[0, 1)`; we abstract it by the digit list
of its base-36 expansion. `Number.prototype.toString(36)` prints `"0"` for
zero and `"0." ++ digits` otherwise, so the digit list determines the string
the source code slices. -/

/-- The base-36 digit characters used by JavaScript `Number.toString(36)`:
`0`-`9` then lowercase `a`-`z`. -/
def base36Char (d : Fin 36) : Char :=
  if d.val < 10 then Char.ofNat (48 + d.val) else Char.ofNat (87 + d.val)

/-- `Math.random().toString(36)` as a function of the base-36 fractional
digits of the random value: `"0"` when the value is `0` (empty digit list),
otherwise `"0." ++ digits`. -/
def jsRandomToString36 (digits : List (Fin 36)) : List Char :=
  match digits with
  | [] => ['0']
  | _ => '0' :: '.' :: digits.map base36Char

/-- JavaScript `String.prototype.substr(start, len)`. -/
def jsSubstr (l : List Char) (start len : Nat) : List Char :=
  (l.drop start).take len

/-- `Math.random().toString(36).substr(2, 6).toUpperCase()`. -/
def randomSuffix (digits : List (Fin 36)) : List Char :=
  (jsSubstr (jsRandomToString36 digits) 2 6).map Char.toUpper

/-- The redemption code template of `redeemReward`:
`ECO-${Date.now()}-${...suffix...}`. -/
def redemptionCode (now : Nat) (digits : List (Fin 36)) : String :=
  "ECO-" ++ toString now ++ "-" ++ String.mk (randomSuffix digits)

/-! ## DatabaseStorage operations -/

/-- `getUser`: `select().from(users).where(eq(users.id, id))`, first row. -/
def getUser (db : DB) (id : String) : Option User :=
  db.users.find? (fun u => u.id == id)

/-- `upsertUser`: insert with `onConflictDoUpdate` on `users.id`, setting the
payload fields and `updatedAt = new Date()`; returns the affected row. -/
def upsertUser (db : DB) (userData : UpsertUser) (now : Nat) :
    Option User × DB :=
  if db.users.any (fun u => u.id == userData.id) then
    let users' := db.users.map (fun u =>
      if u.id == userData.id then
        { u with email := userData.email, updatedAt := now }
      else u)
    (users'.find? (fun u => u.id == userData.id), { db with users := users' })
  else
    let u : User := { id := userData.id, email := userData.email,
                      ecoPoints := 0, carbonFootprint := none,
                      updatedAt := now }
    (some u, { db with users := db.users ++ [u] })

/-- `createWasteEntry`: insert the entry, then
`update(users).set({ecoPoints: ecoPoints + (entry.ecoPointsEarned || 0)})`
on the owning user; returns the inserted row. -/
def createWasteEntry (db : DB) (entry : InsertWasteEntry) (now : Nat) :
    WasteEntry × DB :=
  let wasteEntry : WasteEntry :=
    { id := db.nextId, userId := entry.userId, wasteType := entry.wasteType,
      quantity := entry.quantity, ecoPointsEarned := entry.ecoPointsEarned,
      createdAt := now }
  let db1 := { db with wasteEntries := db.wasteEntries ++ [wasteEntry],
                       nextId := db.nextId + 1 }
  let db2 := { db1 with users := db1.users.map (fun u =>
    if u.id == entry.userId then
      { u with ecoPoints := u.ecoPoints + jsOr0Opt entry.ecoPointsEarned }
    else u) }
  (wasteEntry, db2)

/-- `getUserWasteEntries`: all entries of one user (ordering by `createdAt`
descending is presentation only and not modelled). -/
def getUserWasteEntries (db : DB) (userId : String) : List WasteEntry :=
  db.wasteEntries.filter (fun w => w.userId == userId)

/-- `getWasteEntriesByDateRange`: entries of one user within
`[startDate, endDate]`. -/
def getWasteEntriesByDateRange (db : DB) (userId : String)
    (startDate endDate : Nat) : List WasteEntry :=
  db.wasteEntries.filter (fun w =>
    w.userId == userId && startDate ≤ w.createdAt && w.createdAt ≤ endDate)

/-- `createPickupSchedule`: plain insert, returning the row. -/
def createPickupSchedule (db : DB) (schedule : InsertPickupSchedule) :
    PickupSchedule × DB :=
  let row : PickupSchedule :=
    { id := db.nextId, userId := schedule.userId,
      scheduledDate := schedule.scheduledDate, status := schedule.status,
      completedAt := none }
  (row, { db with pickupSchedules := db.pickupSchedules ++ [row],
                  nextId := db.nextId + 1 })

/-- `getUserPickupSchedules`. -/
def getUserPickupSchedules (db : DB) (userId : String) :
    List PickupSchedule :=
  db.pickupSchedules.filter (fun s => s.userId == userId)

/-- `updatePickupScheduleStatus`: sets `status`, and `completedAt = new
Date()` when the new status is `'completed'` (the ORM drops the field from
the `SET` clause when the value is `undefined`, so it is left unchanged
otherwise); returns the first updated row. -/
def updatePickupScheduleStatus (db : DB) (id : Nat) (status : String)
    (now : Nat) : Option PickupSchedule × DB :=
  let schedules' := db.pickupSchedules.map (fun s =>
    if s.id == id then
      { s with status := status,
               completedAt := if status == "completed" then some now
                              else s.completedAt }
    else s)
  (schedules'.find? (fun s => s.id == id),
   { db with pickupSchedules := schedules' })

/-- `createCommunityReport`: plain insert with `status` from the payload,
`createdAt` defaulted to now, no `resolvedAt`. -/
def createCommunityReport (db : DB) (report : InsertCommunityReport)
    (now : Nat) : CommunityReport × DB :=
  let row : CommunityReport :=
    { id := db.nextId, reportType := report.reportType,
      description := report.description, location := report.location,
      priority := report.priority, status := report.status,
      createdAt := now, resolvedAt := none }
  (row, { db with communityReports := db.communityReports ++ [row],
                  nextId := db.nextId + 1 })

/-- `getCommunityReports`: newest reports, at most `limit` of them (the
descending-`createdAt` ordering itself is not modelled). -/
def getCommunityReports (db : DB) (limit : Nat := 50) :
    List CommunityReport :=
  db.communityReports.take limit

/-- `updateCommunityReportStatus`: sets `status` to the given string, and
`resolvedAt = new Date()` when the new status is `'resolved'` (the ORM drops
an `undefined` field from the `SET` clause, leaving it unchanged otherwise);
returns the first updated row. No lifecycle check is performed. -/
def updateCommunityReportStatus (db : DB) (id : Nat) (status : String)
    (now : Nat) : Option CommunityReport × DB :=
  let reports' := db.communityReports.map (fun r =>
    if r.id == id then
      { r with status := status,
               resolvedAt := if status == "resolved" then some now
                             else r.resolvedAt }
    else r)
  (reports'.find? (fun r => r.id == id),
   { db with communityReports := reports' })

/-- `createCleanupEvent`: plain insert with `currentParticipants`
defaulting to 0. -/
def createCleanupEvent (db : DB) (event : InsertCleanupEvent) :
    CleanupEvent × DB :=
  let row : CleanupEvent :=
    { id := db.nextId, eventDate := event.eventDate,
      maxParticipants := event.maxParticipants, currentParticipants := 0,
      ecoPointsReward := event.ecoPointsReward, status := event.status }
  (row, { db with cleanupEvents := db.cleanupEvents ++ [row],
                  nextId := db.nextId + 1 })

/-- `getUpcomingCleanupEvents`: events with status `'upcoming'` and
`eventDate ≥ now`. -/
def getUpcomingCleanupEvents (db : DB) (now : Nat) : List CleanupEvent :=
  db.cleanupEvents.filter (fun e =>
    e.status == "upcoming" && now ≤ e.eventDate)

/-- `joinCleanupEvent`: insert `{eventId, userId}` into `eventParticipants`
with `onConflictDoNothing()` (conflict target: the (eventId, userId) pair),
then unconditionally `update(cleanupEvents).set({currentParticipants:
currentParticipants + 1})` on the event row. -/
def joinCleanupEvent (db : DB) (eventId : Nat) (userId : String) : DB :=
  let participants :=
    if db.eventParticipants.any (fun p =>
        p.eventId == eventId && p.userId == userId) then
      db.eventParticipants
    else
      db.eventParticipants ++ [{ eventId := eventId, userId := userId }]
  let events := db.cleanupEvents.map (fun e =>
    if e.id == eventId then
      { e with currentParticipants := e.currentParticipants + 1 }
    else e)
  { db with eventParticipants := participants, cleanupEvents := events }

/-- `getActiveChallenges`. -/
def getActiveChallenges (db : DB) : List EcoChallenge :=
  db.ecoChallenges.filter (fun c => c.isActive)

/-- `getUserChallengeProgress`. -/
def getUserChallengeProgress (db : DB) (userId : String) :
    List UserChallengeProgressRow :=
  db.userChallengeProgress.filter (fun r => r.userId == userId)

/-- `updateChallengeProgress`: insert `{userId, challengeId,
currentProgress: progress}` with `onConflictDoUpdate` on the
(userId, challengeId) pair, setting
`currentProgress = currentProgress + progress` on conflict. -/
def updateChallengeProgress (db : DB) (userId : String) (challengeId : Nat)
    (progress : Int) (now : Nat) : DB :=
  if db.userChallengeProgress.any (fun r =>
      r.userId == userId && r.challengeId == challengeId) then
    { db with userChallengeProgress := db.userChallengeProgress.map (fun r =>
        if r.userId == userId && r.challengeId == challengeId then
          { r with currentProgress := r.currentProgress + progress }
        else r) }
  else
    let row : UserChallengeProgressRow :=
      { id := db.nextId, userId := userId, challengeId := challengeId,
        currentProgress := progress, createdAt := now }
    { db with userChallengeProgress := db.userChallengeProgress ++ [row],
              nextId := db.nextId + 1 }

/-- `getAvailableRewards`. -/
def getAvailableRewards (db : DB) : List Reward :=
  db.rewards.filter (fun r => r.isActive)

/-- `redeemReward`: read the reward (throw `'Reward not found'` if absent);
read the user and throw `'Insufficient EcoPoints'` if
`!user || (user.ecoPoints || 0) < reward.ecoPointsCost`; otherwise
`update(users).set({ecoPoints: ecoPoints - cost})`, then insert the
`UserReward` row with the generated redemption code and
`expiresAt = reward.validUntil`, returning it. The returned `DB` is the
state when the call finishes, thrown or not. -/
def redeemReward (db : DB) (userId : String) (rewardId : Nat) (now : Nat)
    (digits : List (Fin 36)) : Except String UserReward × DB :=
  match db.rewards.find? (fun r => r.id == rewardId) with
  | none => (Except.error "Reward not found", db)
  | some reward =>
    match db.users.find? (fun u => u.id == userId) with
    | none => (Except.error "Insufficient EcoPoints", db)
    | some user =>
      if jsOr0 user.ecoPoints < reward.ecoPointsCost then
        (Except.error "Insufficient EcoPoints", db)
      else
        let users1 := db.users.map (fun u =>
          if u.id == userId then
            { u with ecoPoints := u.ecoPoints - reward.ecoPointsCost }
          else u)
        let db1 := { db with users := users1 }
        let userReward : UserReward :=
          { id := db1.nextId, userId := userId, rewardId := rewardId,
            redemptionCode := redemptionCode now digits,
            expiresAt := reward.validUntil, redeemedAt := now }
        (Except.ok userReward,
         { db1 with userRewards := db1.userRewards ++ [userReward],
                    nextId := db1.nextId + 1 })

/-- `getUserRewards`. -/
def getUserRewards (db : DB) (userId : String) : List UserReward :=
  db.userRewards.filter (fun r => r.userId == userId)

/-- The record returned by `getUserAnalytics`. `wasteByType` is the JS
object `Record<string, number>` read as a partial map from type names. -/
structure Analytics where
  totalWasteEntries : Nat
  totalEcoPoints : Int
  wasteByType : String → Option ℚ
  carbonFootprint : ℚ

/-- One step of the `reduce` in `getUserAnalytics`:
`acc[entry.wasteType] = (acc[entry.wasteType] || 0) + parseFloat(entry.quantity)`. -/
def wasteByTypeStep (acc : String → Option ℚ) (entry : WasteEntry) :
    String → Option ℚ :=
  fun t => if t = entry.wasteType
           then some ((acc entry.wasteType).getD 0 + entry.quantity)
           else acc t

/-- `getUserAnalytics`: reads the user row, reads the user's waste entries,
folds them into a waste-type → summed-quantity map, and returns the totals
stored on the user row (`user?.ecoPoints || 0`,
`parseFloat(user?.carbonFootprint || "0")`). -/
def getUserAnalytics (db : DB) (userId : String) : Analytics :=
  let user := db.users.find? (fun u => u.id == userId)
  let wasteEntriesData := db.wasteEntries.filter (fun w => w.userId == userId)
  { totalWasteEntries := wasteEntriesData.length,
    totalEcoPoints := jsOr0Opt (user.map (fun u => u.ecoPoints)),
    wasteByType := wasteEntriesData.foldl wasteByTypeStep (fun _ => none),
    carbonFootprint := ((user.bind (fun u => u.carbonFootprint)).getD 0) }

/-! ## The operation alphabet of `DatabaseStorage` (claim C8) -/

/-- One call to a `DatabaseStorage` method, with all inputs (including the
clock and randomness) made explicit. -/
inductive Op where
  | opGetUser (id : String)
  | opUpsertUser (userData : UpsertUser) (now : Nat)
  | opCreateWasteEntry (entry : InsertWasteEntry) (now : Nat)
  | opGetUserWasteEntries (userId : String)
  | opGetWasteEntriesByDateRange (userId : String) (startDate endDate : Nat)
  | opCreatePickupSchedule (schedule : InsertPickupSchedule)
  | opGetUserPickupSchedules (userId : String)
  | opUpdatePickupScheduleStatus (id : Nat) (status : String) (now : Nat)
  | opCreateCommunityReport (report : InsertCommunityReport) (now : Nat)
  | opGetCommunityReports (limit : Nat)
  | opUpdateCommunityReportStatus (id : Nat) (status : String) (now : Nat)
  | opCreateCleanupEvent (event : InsertCleanupEvent)
  | opGetUpcomingCleanupEvents (now : Nat)
  | opJoinCleanupEvent (eventId : Nat) (userId : String)
  | opGetActiveChallenges
  | opGetUserChallengeProgress (userId : String)
  | opUpdateChallengeProgress (userId : String) (challengeId : Nat)
      (progress : Int) (now : Nat)
  | opGetAvailableRewards
  | opRedeemReward (userId : String) (rewardId : Nat) (now : Nat)
      (digits : List (Fin 36))
  | opGetUserRewards (userId : String)
  | opGetUserAnalytics (userId : String)

/-- The database state after one `DatabaseStorage` call. The `select`-only
methods run no mutating statement, so they leave the state unchanged; the
mutating methods produce the state their writes leave behind (for
`redeemReward`, the state at the moment the call returns or throws). -/
def applyOp (op : Op) (db : DB) : DB :=
  match op with
  | .opGetUser _ => db
  | .opUpsertUser userData now => (upsertUser db userData now).2
  | .opCreateWasteEntry entry now => (createWasteEntry db entry now).2
  | .opGetUserWasteEntries _ => db
  | .opGetWasteEntriesByDateRange _ _ _ => db
  | .opCreatePickupSchedule schedule => (createPickupSchedule db schedule).2
  | .opGetUserPickupSchedules _ => db
  | .opUpdatePickupScheduleStatus id status now =>
      (updatePickupScheduleStatus db id status now).2
  | .opCreateCommunityReport report now =>
      (createCommunityReport db report now).2
  | .opGetCommunityReports _ => db
  | .opUpdateCommunityReportStatus id status now =>
      (updateCommunityReportStatus db id status now).2
  | .opCreateCleanupEvent event => (createCleanupEvent db event).2
  | .opGetUpcomingCleanupEvents _ => db
  | .opJoinCleanupEvent eventId userId => joinCleanupEvent db eventId userId
  | .opGetActiveChallenges => db
  | .opGetUserChallengeProgress _ => db
  | .opUpdateChallengeProgress userId challengeId progress now =>
      updateChallengeProgress db userId challengeId progress now
  | .opGetAvailableRewards => db
  | .opRedeemReward userId rewardId now digits =>
      (redeemReward db userId rewardId now digits).2
  | .opGetUserRewards _ => db
  | .opGetUserAnalytics _ => db

/-- Every row of `l` is still represented in `l'`: some row of `l'` carries
the same key (primary key / conflict target). -/
def keyStays {α : Type} {κ : Type} (key : α → κ) (l l' : List α) : Prop :=
  ∀ a ∈ l, ∃ b ∈ l', key b = key a

/-- No row of any table was deleted between the two states: every row of
`db` is still present in `db'` under its key, possibly with updated
non-key fields. -/
def rowsPreserved (db db' : DB) : Prop :=
  keyStays User.id db.users db'.users ∧
  keyStays WasteEntry.id db.wasteEntries db'.wasteEntries ∧
  keyStays PickupSchedule.id db.pickupSchedules db'.pickupSchedules ∧
  keyStays CommunityReport.id db.communityReports db'.communityReports ∧
  keyStays CleanupEvent.id db.cleanupEvents db'.cleanupEvents ∧
  keyStays (fun p => (p.eventId, p.userId))
    db.eventParticipants db'.eventParticipants ∧
  keyStays EcoChallenge.id db.ecoChallenges db'.ecoChallenges ∧
  keyStays UserChallengeProgressRow.id
    db.userChallengeProgress db'.userChallengeProgress ∧
  keyStays Reward.id db.rewards db'.rewards ∧
  keyStays UserReward.id db.userRewards db'.userRewards

/-! ## Claim-level format predicates -/

/-- An uppercase alphanumeric character (`0`-`9` or `A`-`Z`), the alphabet
claimed for the random part of a redemption code. -/
def isUpperAlnum (c : Char) : Prop :=
  ('0' ≤ c ∧ c ≤ '9') ∨ ('A' ≤ c ∧ c ≤ 'Z')

instance (c : Char) : Decidable (isUpperAlnum c) := by
  unfold isUpperAlnum; infer_instance

/-- The redemption-code format claimed by the spec:
`ECO-<timestamp>-<random6>` with a 6-character uppercase alphanumeric
suffix. -/
def isEcoCode6Format (s : String) : Prop :=
  ∃ tsStr suffix : String,
    s = "ECO-" ++ tsStr ++ "-" ++ suffix ∧
    suffix.length = 6 ∧
    ∀ c ∈ suffix.data, isUpperAlnum c

/-- The status lifecycle of a community report claimed by the spec:
`reported → investigating → resolved`, in that order. -/
def reportLifecycleStep (a b : String) : Prop :=
  (a = "reported" ∧ b = "investigating") ∨
  (a = "investigating" ∧ b = "resolved")

/-! ## Concrete states used by witnesses and counterexamples -/

/-- A sample user with a balance of 10 EcoPoints. -/
def sampleUser : User :=
  { id := "u", email := none, ecoPoints := 10, carbonFootprint := some 3,
    updatedAt := 0 }

/-- A sample reward costing 4 EcoPoints. -/
def sampleReward : Reward :=
  { id := 1, ecoPointsCost := 4, isActive := true, validUntil := none }

/-- A sample community report that is already resolved. -/
def sampleReportRow : CommunityReport :=
  { id := 1, reportType := "dumping", description := "d",
    location := "loc", priority := "high", status := "resolved",
    createdAt := 0, resolvedAt := some 3 }

/-- A sample database: one user with 10 points and two plastic waste
entries, one reward, one upcoming cleanup event with no participants, and
one already-resolved community report. -/
def sampleDb : DB :=
  { users := [sampleUser],
    wasteEntries :=
      [{ id := 11, userId := "u", wasteType := "plastic", quantity := 2,
         ecoPointsEarned := some 5, createdAt := 1 },
       { id := 12, userId := "u", wasteType := "plastic", quantity := 3,
         ecoPointsEarned := some 5, createdAt := 2 }],
    pickupSchedules := [],
    communityReports := [sampleReportRow],
    cleanupEvents :=
      [{ id := 1, eventDate := 100, maxParticipants := 20,
         currentParticipants := 0, ecoPointsReward := 50,
         status := "upcoming" }],
    eventParticipants := [], ecoChallenges := [],
    userChallengeProgress := [], rewards := [sampleReward],
    userRewards := [], nextId := 20 }

/-- A sample insert payload: user `"u"` logs 1 unit of glass worth 5
points. -/
def sampleEntry : InsertWasteEntry :=
  { userId := "u", wasteType := "glass", quantity := 1,
    ecoPointsEarned := some 5 }

/-- A sample challenge-progress row for user `"u"`, challenge 7. -/
def sampleProgressRow : UserChallengeProgressRow :=
  { id := 13, userId := "u", challengeId := 7, currentProgress := 2,
    createdAt := 0 }

/-- `sampleDb` with an existing challenge-progress row, exercising the
conflict branch of `updateChallengeProgress`. -/
def sampleDbWithProgress : DB :=
  { sampleDb with userChallengeProgress := [sampleProgressRow] }

/-! ## Helper lemmas -/

theorem jsOr0_eq (x : Int) : jsOr0 x = x := by
  unfold jsOr0; split <;> simp_all

theorem jsOr0Opt_some (n : Int) : jsOr0Opt (some n) = n := by
  simp [jsOr0Opt, jsOr0_eq]

/-- `find?` commutes with a `map` whose function does not change the
searched predicate. -/
theorem find?_map_congr {α : Type} (p : α → Bool) (f : α → α)
    (h : ∀ a, p (f a) = p a) (l : List α) :
    (l.map f).find? p = (l.find? p).map f := by
  induction l with
  | nil => rfl
  | cons a l ih =>
    cases hpa : p a with
    | true =>
      rw [List.map_cons, List.find?_cons_of_pos _ (by rw [h a, hpa]),
        List.find?_cons_of_pos _ hpa]
      rfl
    | false =>
      rw [List.map_cons, List.find?_cons_of_neg _ (by simp [h a, hpa]),
        List.find?_cons_of_neg _ (by simp [hpa]), ih]

theorem keyStays_refl {α κ : Type} (key : α → κ) (l : List α) :
    keyStays key l l :=
  fun a ha => ⟨a, ha, rfl⟩

theorem keyStays_map {α κ : Type} (key : α → κ) (f : α → α) (l : List α)
    (h : ∀ a, key (f a) = key a) : keyStays key l (l.map f) :=
  fun a ha => ⟨f a, List.mem_map_of_mem f ha, h a⟩

theorem keyStays_append {α κ : Type} (key : α → κ) (l l₂ : List α) :
    keyStays key l (l ++ l₂) :=
  fun a ha => ⟨a, List.mem_append_left _ ha, rfl⟩

/-! ## Branch equations for `redeemReward` -/

/-- `redeemReward` when no reward row matches: it throws
`'Reward not found'` with the state untouched. -/
theorem redeemReward_notfound_eq (db : DB) (userId : String)
    (rewardId : Nat) (now : Nat) (digits : List (Fin 36))
    (hr : db.rewards.find? (fun r => r.id == rewardId) = none) :
    redeemReward db userId rewardId now digits =
      (Except.error "Reward not found", db) := by
  unfold redeemReward; rw [hr]

/-- `redeemReward` when the reward exists but no user row matches: it
throws `'Insufficient EcoPoints'` with the state untouched. -/
theorem redeemReward_nouser_eq (db : DB) (userId : String)
    (rewardId : Nat) (now : Nat) (digits : List (Fin 36)) (reward : Reward)
    (hr : db.rewards.find? (fun r => r.id == rewardId) = some reward)
    (hu : db.users.find? (fun u => u.id == userId) = none) :
    redeemReward db userId rewardId now digits =
      (Except.error "Insufficient EcoPoints", db) := by
  unfold redeemReward; rw [hr, hu]

/-- `redeemReward` when the balance check `(user.ecoPoints || 0) <
reward.ecoPointsCost` trips: it throws `'Insufficient EcoPoints'` with the
state untouched. -/
theorem redeemReward_poor_eq (db : DB) (userId : String)
    (rewardId : Nat) (now : Nat) (digits : List (Fin 36)) (reward : Reward)
    (user : User)
    (hr : db.rewards.find? (fun r => r.id == rewardId) = some reward)
    (hu : db.users.find? (fun u => u.id == userId) = some user)
    (hc : jsOr0 user.ecoPoints < reward.ecoPointsCost) :
    redeemReward db userId rewardId now digits =
      (Except.error "Insufficient EcoPoints", db) := by
  simp only [redeemReward, hr, hu]
  rw [if_pos hc]

/-- The success branch of `redeemReward` as one equation: the user rows
with the matching id are debited by the cost, and the fresh `UserReward`
row is appended and returned. -/
theorem redeemReward_success_eq (db : DB) (userId : String)
    (rewardId : Nat) (now : Nat) (digits : List (Fin 36)) (reward : Reward)
    (user : User)
    (hr : db.rewards.find? (fun r => r.id == rewardId) = some reward)
    (hu : db.users.find? (fun u => u.id == userId) = some user)
    (hc : ¬ jsOr0 user.ecoPoints < reward.ecoPointsCost) :
    redeemReward db userId rewardId now digits =
      (Except.ok { id := db.nextId, userId := userId, rewardId := rewardId,
                   redemptionCode := redemptionCode now digits,
                   expiresAt := reward.validUntil, redeemedAt := now },
       { db with
           users := db.users.map (fun u =>
             if u.id == userId
             then { u with ecoPoints := u.ecoPoints - reward.ecoPointsCost }
             else u),
           userRewards := db.userRewards ++
             [{ id := db.nextId, userId := userId, rewardId := rewardId,
                redemptionCode := redemptionCode now digits,
                expiresAt := reward.validUntil, redeemedAt := now }],
           nextId := db.nextId + 1 }) := by
  simp only [redeemReward, hr, hu]
  rw [if_neg hc]

/-- Debiting every user row with the matching id moves `find?` to the
debited row. -/
theorem find?_users_deduct (l : List User) (userId : String) (cost : Int)
    (user : User)
    (hu : l.find? (fun u => u.id == userId) = some user) :
    (l.map (fun u => if u.id == userId
                     then { u with ecoPoints := u.ecoPoints - cost }
                     else u)).find? (fun u => u.id == userId) =
      some { user with ecoPoints := user.ecoPoints - cost } := by
  have hp := List.find?_some hu
  rw [find?_map_congr (fun u => u.id == userId)
    (fun u => if u.id == userId
              then { u with ecoPoints := u.ecoPoints - cost }
              else u)
    (fun a => by by_cases ha : a.id == userId <;> simp [ha]) l, hu]
  exact congrArg some (if_pos hp)

/-! ## C1 — `redeemReward` branch behaviour -/

/-- C1: for every `userId` and `rewardId`, `redeemReward` throws
`'Reward not found'` when no reward row with id `rewardId` exists; throws
`'Insufficient EcoPoints'` when the user row is missing or the user's
`ecoPoints` is below the reward's `ecoPointsCost`; and otherwise deducts
exactly `ecoPointsCost` from the user's `ecoPoints` and returns a newly
inserted `UserReward` row. -/
theorem redeemReward_branch_spec (db : DB) (userId : String)
    (rewardId : Nat) (now : Nat) (digits : List (Fin 36)) :
    (db.rewards.find? (fun r => r.id == rewardId) = none →
      redeemReward db userId rewardId now digits =
        (Except.error "Reward not found", db)) ∧
    (∀ reward, db.rewards.find? (fun r => r.id == rewardId) = some reward →
      (db.users.find? (fun u => u.id == userId) = none →
        redeemReward db userId rewardId now digits =
          (Except.error "Insufficient EcoPoints", db)) ∧
      (∀ user, db.users.find? (fun u => u.id == userId) = some user →
        (user.ecoPoints < reward.ecoPointsCost →
          redeemReward db userId rewardId now digits =
            (Except.error "Insufficient EcoPoints", db)) ∧
        (reward.ecoPointsCost ≤ user.ecoPoints →
          ∃ ur,
            (redeemReward db userId rewardId now digits).1 =
              Except.ok ur ∧
            ur.userId = userId ∧ ur.rewardId = rewardId ∧
            (redeemReward db userId rewardId now digits).2.userRewards =
              db.userRewards ++ [ur] ∧
            (redeemReward db userId rewardId now digits).2.users.find?
                (fun u => u.id == userId) =
              some { user with
                       ecoPoints :=
                         user.ecoPoints - reward.ecoPointsCost }))) := by
  refine ⟨fun hnone => redeemReward_notfound_eq _ _ _ _ _ hnone,
    fun reward hreward =>
      ⟨fun hnouser => redeemReward_nouser_eq _ _ _ _ _ _ hreward hnouser,
       fun user huser =>
        ⟨fun hlt => redeemReward_poor_eq _ _ _ _ _ _ _ hreward huser
            (by rw [jsOr0_eq]; exact hlt),
         fun hge => ?_⟩⟩⟩
  have hc : ¬ jsOr0 user.ecoPoints < reward.ecoPointsCost := by
    rw [jsOr0_eq]; exact not_lt.mpr hge
  rw [redeemReward_success_eq db userId rewardId now digits reward user
    hreward huser hc]
  exact ⟨_, rfl, rfl, rfl, rfl,
    find?_users_deduct db.users userId reward.ecoPointsCost user huser⟩

/-- Witness for C1: on `sampleDb`, an unknown reward id throws
`'Reward not found'`, and redeeming reward 1 as user `"u"` (balance 10,
cost 4) succeeds, appends the `UserReward` row, and debits 4 points. -/
theorem redeemReward_branch_spec_witness :
    (redeemReward sampleDb "u" 99 0 [] =
      (Except.error "Reward not found", sampleDb)) ∧
    ∃ ur,
      (redeemReward sampleDb "u" 1 0 []).1 = Except.ok ur ∧
      ur.userId = "u" ∧ ur.rewardId = 1 ∧
      (redeemReward sampleDb "u" 1 0 []).2.userRewards =
        sampleDb.userRewards ++ [ur] ∧
      (redeemReward sampleDb "u" 1 0 []).2.users.find?
          (fun u => u.id == "u") =
        some { sampleUser with
                 ecoPoints := sampleUser.ecoPoints -
                   sampleReward.ecoPointsCost } := by
  constructor
  · exact (redeemReward_branch_spec sampleDb "u" 99 0 []).1 (by rfl)
  · exact (((redeemReward_branch_spec sampleDb "u" 1 0 []).2 sampleReward
      (by rfl)).2 sampleUser (by rfl)).2 (by decide)

/-! ## C10 — `redeemReward` is atomic on error -/

/-- C10: whenever `redeemReward` throws (either `'Reward not found'` or
`'Insufficient EcoPoints'`), the database state is unchanged — no points
are deducted and no `UserReward` row is inserted, because both reads and
the balance check occur before any write. -/
theorem redeemReward_error_frame (db : DB) (userId : String)
    (rewardId : Nat) (now : Nat) (digits : List (Fin 36)) (e : String)
    (herr : (redeemReward db userId rewardId now digits).1 =
      Except.error e) :
    (redeemReward db userId rewardId now digits).2 = db := by
  cases hr : db.rewards.find? (fun r => r.id == rewardId) with
  | none => rw [redeemReward_notfound_eq db userId rewardId now digits hr]
  | some reward =>
    cases hu : db.users.find? (fun u => u.id == userId) with
    | none =>
      rw [redeemReward_nouser_eq db userId rewardId now digits reward hr hu]
    | some user =>
      by_cases hc : jsOr0 user.ecoPoints < reward.ecoPointsCost
      · rw [redeemReward_poor_eq db userId rewardId now digits reward user
          hr hu hc]
      · rw [redeemReward_success_eq db userId rewardId now digits reward
          user hr hu hc] at herr
        exact absurd herr (by simp)

/-- Witness for C10: redeeming a non-existent reward on `sampleDb` leaves
the state exactly `sampleDb`. -/
theorem redeemReward_error_frame_witness :
    (redeemReward sampleDb "u" 99 0 []).2 = sampleDb :=
  redeemReward_error_frame sampleDb "u" 99 0 [] "Reward not found" (by rfl)

/-! ## C4 — redemption never drives the balance negative -/

/-- C4: under sequential execution, whenever `redeemReward` completes
without throwing for a user whose `ecoPoints` is a non-negative integer,
the user's `ecoPoints` after the deduction is still non-negative, because
the check `ecoPoints >= ecoPointsCost` happens before the deduction. -/
theorem redeemReward_nonneg (db : DB) (userId : String) (rewardId : Nat)
    (now : Nat) (digits : List (Fin 36)) (user : User)
    (huser : db.users.find? (fun u => u.id == userId) = some user)
    (_hnn : 0 ≤ user.ecoPoints) (ur : UserReward)
    (hok : (redeemReward db userId rewardId now digits).1 = Except.ok ur) :
    ∃ u', (redeemReward db userId rewardId now digits).2.users.find?
        (fun u => u.id == userId) = some u' ∧ 0 ≤ u'.ecoPoints := by
  cases hr : db.rewards.find? (fun r => r.id == rewardId) with
  | none =>
    rw [redeemReward_notfound_eq db userId rewardId now digits hr] at hok
    exact absurd hok (by simp)
  | some reward =>
    by_cases hc : jsOr0 user.ecoPoints < reward.ecoPointsCost
    · rw [redeemReward_poor_eq db userId rewardId now digits reward user
        hr huser hc] at hok
      exact absurd hok (by simp)
    · rw [redeemReward_success_eq db userId rewardId now digits reward user
        hr huser hc]
      refine ⟨_,
        find?_users_deduct db.users userId reward.ecoPointsCost user huser,
        ?_⟩
      rw [jsOr0_eq, not_lt] at hc
      exact Int.sub_nonneg.mpr hc

/-- Witness for C4: the successful redemption on `sampleDb` leaves user
`"u"` with a non-negative balance. -/
theorem redeemReward_nonneg_witness :
    ∃ u', (redeemReward sampleDb "u" 1 0 []).2.users.find?
        (fun u => u.id == "u") = some u' ∧ 0 ≤ u'.ecoPoints :=
  redeemReward_nonneg sampleDb "u" 1 0 [] sampleUser (by rfl) (by decide)
    { id := 20, userId := "u", rewardId := 1,
      redemptionCode := "ECO-0-", expiresAt := none, redeemedAt := 0 }
    (by rfl)

/-- Updating user rows through a key-preserving row function moves `find?`
to the updated row. -/
theorem find?_users_update (l : List User) (userId : String) (g : User → User)
    (hg : ∀ u, (g u).id = u.id) (user : User)
    (hu : l.find? (fun u => u.id == userId) = some user) :
    (l.map (fun u => if u.id == userId then g u else u)).find?
        (fun u => u.id == userId) = some (g user) := by
  have hp := List.find?_some hu
  rw [find?_map_congr (fun u => u.id == userId)
    (fun u => if u.id == userId then g u else u)
    (fun a => by by_cases ha : a.id == userId <;> simp [ha, hg]) l, hu]
  exact congrArg some (if_pos hp)

/-! ## C2 — `createWasteEntry` inserts and credits the earned points -/

/-- C2: for every waste entry with a non-negative `ecoPointsEarned` value,
`createWasteEntry` inserts the entry, increases the owning user's
`ecoPoints` by exactly that amount, and returns the inserted entry. -/
theorem createWasteEntry_spec (db : DB) (entry : InsertWasteEntry)
    (now : Nat) (n : Int) (hn : entry.ecoPointsEarned = some n)
    (_hnn : 0 ≤ n) :
    (createWasteEntry db entry now).2.wasteEntries =
      db.wasteEntries ++ [(createWasteEntry db entry now).1] ∧
    (createWasteEntry db entry now).1.userId = entry.userId ∧
    (createWasteEntry db entry now).1.wasteType = entry.wasteType ∧
    (createWasteEntry db entry now).1.quantity = entry.quantity ∧
    (createWasteEntry db entry now).1.ecoPointsEarned = some n ∧
    ∀ u, db.users.find? (fun x => x.id == entry.userId) = some u →
      (createWasteEntry db entry now).2.users.find?
          (fun x => x.id == entry.userId) =
        some { u with ecoPoints := u.ecoPoints + n } := by
  refine ⟨rfl, rfl, rfl, rfl, hn, fun u hu => ?_⟩
  have h := find?_users_update db.users entry.userId
    (fun u => { u with
                  ecoPoints := u.ecoPoints + jsOr0Opt entry.ecoPointsEarned })
    (fun _ => rfl) u hu
  show (db.users.map (fun u =>
      if u.id == entry.userId
      then { u with
               ecoPoints := u.ecoPoints + jsOr0Opt entry.ecoPointsEarned }
      else u)).find? (fun x => x.id == entry.userId) =
    some { u with ecoPoints := u.ecoPoints + n }
  rw [h, hn, jsOr0Opt_some]

/-- Witness for C2: logging `sampleEntry` on `sampleDb` appends the entry
and lifts user `"u"` from 10 to 15 points. -/
theorem createWasteEntry_spec_witness :
    (createWasteEntry sampleDb sampleEntry 9).2.wasteEntries =
      sampleDb.wasteEntries ++ [(createWasteEntry sampleDb sampleEntry 9).1] ∧
    (createWasteEntry sampleDb sampleEntry 9).2.users.find?
        (fun x => x.id == "u") =
      some { sampleUser with ecoPoints := sampleUser.ecoPoints + 5 } := by
  have h := createWasteEntry_spec sampleDb sampleEntry 9 5 rfl (by decide)
  exact ⟨h.1, h.2.2.2.2.2 sampleUser (by rfl)⟩

/-! ## C3 — `joinCleanupEvent` is idempotent on rows, not on the counter -/

/-- `joinCleanupEvent` appends the participant row when the pair is not
yet present. -/
theorem joinCleanupEvent_parts_new (db : DB) (eventId : Nat)
    (userId : String)
    (h : db.eventParticipants.any (fun p =>
      p.eventId == eventId && p.userId == userId) = false) :
    (joinCleanupEvent db eventId userId).eventParticipants =
      db.eventParticipants ++ [{ eventId := eventId, userId := userId }] := by
  simp [joinCleanupEvent, h]

/-- `joinCleanupEvent` skips the insert when the pair is already present
(the `onConflictDoNothing` branch). -/
theorem joinCleanupEvent_parts_dup (db : DB) (eventId : Nat)
    (userId : String)
    (h : db.eventParticipants.any (fun p =>
      p.eventId == eventId && p.userId == userId) = true) :
    (joinCleanupEvent db eventId userId).eventParticipants =
      db.eventParticipants := by
  simp [joinCleanupEvent, h]

/-- `joinCleanupEvent` always increments the event's participant
counter. -/
theorem joinCleanupEvent_events (db : DB) (eventId : Nat)
    (userId : String) :
    (joinCleanupEvent db eventId userId).cleanupEvents =
      db.cleanupEvents.map (fun e =>
        if e.id == eventId
        then { e with currentParticipants := e.currentParticipants + 1 }
        else e) := rfl

/-- C3: calling `joinCleanupEvent` twice with the same (eventId, userId)
pair leaves exactly one `eventParticipants` row for the pair (the insert
is conflict-skip, hence idempotent), while the event's
`currentParticipants` counter is incremented on every call, so the
duplicate join still increments it a second time. -/
theorem joinCleanupEvent_twice (db : DB) (eventId : Nat) (userId : String)
    (h : db.eventParticipants.countP (fun p =>
      p.eventId == eventId && p.userId == userId) = 0) :
    ((joinCleanupEvent (joinCleanupEvent db eventId userId) eventId
        userId).eventParticipants.countP (fun p =>
      p.eventId == eventId && p.userId == userId) = 1) ∧
    (joinCleanupEvent (joinCleanupEvent db eventId userId) eventId
        userId).cleanupEvents =
      db.cleanupEvents.map (fun e =>
        if e.id == eventId
        then { e with currentParticipants := e.currentParticipants + 2 }
        else e) := by
  have hnone := List.countP_eq_zero.mp h
  have hany1 : db.eventParticipants.any (fun p =>
      p.eventId == eventId && p.userId == userId) = false :=
    List.any_eq_false.mpr hnone
  have hparts1 := joinCleanupEvent_parts_new db eventId userId hany1
  have hany2 : (joinCleanupEvent db eventId
      userId).eventParticipants.any (fun p =>
      p.eventId == eventId && p.userId == userId) = true := by
    rw [hparts1]
    exact List.any_eq_true.mpr
      ⟨{ eventId := eventId, userId := userId },
       List.mem_append_right _ (List.mem_singleton.mpr rfl), by simp⟩
  constructor
  · rw [joinCleanupEvent_parts_dup _ eventId userId hany2, hparts1,
      List.countP_append, h, List.countP_singleton]
    simp
  · rw [joinCleanupEvent_events, joinCleanupEvent_events, List.map_map]
    refine List.map_congr_left (fun e _ => ?_)
    by_cases hid : e.id == eventId
    · simp only [Function.comp, hid, if_pos, if_true]
      simp only [CleanupEvent.mk.injEq, true_and, and_true]
      omega
    · simp [Function.comp, hid]

/-- Witness for C3: on `sampleDb` (event 1 with 0 participants, no
participant rows), joining twice as `"u"` leaves one participant row and a
counter of 2. -/
theorem joinCleanupEvent_twice_witness :
    ((joinCleanupEvent (joinCleanupEvent sampleDb 1 "u") 1
        "u").eventParticipants.countP (fun p =>
      p.eventId == 1 && p.userId == "u") = 1) ∧
    (joinCleanupEvent (joinCleanupEvent sampleDb 1 "u") 1
        "u").cleanupEvents =
      sampleDb.cleanupEvents.map (fun e =>
        if e.id == 1
        then { e with currentParticipants := e.currentParticipants + 2 }
        else e) :=
  joinCleanupEvent_twice sampleDb 1 "u" (by rfl)

/-! ## C5 — `updateChallengeProgress` upsert semantics -/

/-- C5: if no `userChallengeProgress` row exists for the key
(userId, challengeId), `updateChallengeProgress` inserts a row with
`currentProgress` equal to `progress`; if such a row exists, it adds
`progress` to the existing `currentProgress` instead of replacing it. -/
theorem updateChallengeProgress_upsert (db : DB) (userId : String)
    (challengeId : Nat) (progress : Int) (now : Nat) :
    (db.userChallengeProgress.find? (fun r =>
        r.userId == userId && r.challengeId == challengeId) = none →
      (updateChallengeProgress db userId challengeId progress
          now).userChallengeProgress =
        db.userChallengeProgress ++
          [{ id := db.nextId, userId := userId, challengeId := challengeId,
             currentProgress := progress, createdAt := now }]) ∧
    (∀ row, db.userChallengeProgress.find? (fun r =>
        r.userId == userId && r.challengeId == challengeId) = some row →
      (updateChallengeProgress db userId challengeId progress
          now).userChallengeProgress.find? (fun r =>
        r.userId == userId && r.challengeId == challengeId) =
        some { row with
                 currentProgress := row.currentProgress + progress }) := by
  constructor
  · intro hnone
    have hany : db.userChallengeProgress.any (fun r =>
        r.userId == userId && r.challengeId == challengeId) = false :=
      List.any_eq_false.mpr (List.find?_eq_none.mp hnone)
    simp [updateChallengeProgress, hany]
  · intro row hr
    have hp := List.find?_some hr
    have hany : db.userChallengeProgress.any (fun r =>
        r.userId == userId && r.challengeId == challengeId) = true :=
      List.any_eq_true.mpr ⟨row, List.mem_of_find?_eq_some hr, hp⟩
    have hred : (updateChallengeProgress db userId challengeId progress
        now).userChallengeProgress =
      db.userChallengeProgress.map (fun x =>
        if x.userId == userId && x.challengeId == challengeId
        then { x with currentProgress := x.currentProgress + progress }
        else x) := by
      simp [updateChallengeProgress, hany]
    rw [hred, find?_map_congr (fun x =>
        x.userId == userId && x.challengeId == challengeId)
      (fun x =>
        if x.userId == userId && x.challengeId == challengeId
        then { x with currentProgress := x.currentProgress + progress }
        else x)
      (fun a => by
        by_cases ha : a.userId == userId && a.challengeId == challengeId <;>
          simp [ha]) db.userChallengeProgress, hr]
    exact congrArg some (if_pos hp)

/-- Witness for C5: on `sampleDb` (no progress rows) the call inserts a
fresh row carrying `progress`; on `sampleDbWithProgress` (existing row
with progress 2) it adds to the stored counter instead. -/
theorem updateChallengeProgress_upsert_witness :
    ((updateChallengeProgress sampleDb "u" 7 3
        4).userChallengeProgress =
      sampleDb.userChallengeProgress ++
        [{ id := sampleDb.nextId, userId := "u", challengeId := 7,
           currentProgress := 3, createdAt := 4 }]) ∧
    ((updateChallengeProgress sampleDbWithProgress "u" 7 3
        4).userChallengeProgress.find? (fun r =>
      r.userId == "u" && r.challengeId == 7) =
      some { sampleProgressRow with
               currentProgress := sampleProgressRow.currentProgress + 3 }) :=
  ⟨(updateChallengeProgress_upsert sampleDb "u" 7 3 4).1 (by rfl),
   (updateChallengeProgress_upsert sampleDbWithProgress "u" 7 3 4).2
     sampleProgressRow (by rfl)⟩

/-! ## C6 — `getUserAnalytics` aggregation -/

/-- Looking a waste type up in the analytics `reduce`: a type with no
matching entry keeps the accumulator's value, a type with matching entries
accumulates the sum of their quantities on top of it. -/
theorem foldl_wasteByTypeStep_lookup (l : List WasteEntry)
    (acc : String → Option ℚ) (t : String) :
    (l.foldl wasteByTypeStep acc) t =
      if l.countP (fun w => w.wasteType == t) = 0 then acc t
      else some ((acc t).getD 0 +
        ((l.filter (fun w => w.wasteType == t)).map
          WasteEntry.quantity).sum) := by
  induction l generalizing acc with
  | nil => simp
  | cons w l ih =>
    rw [List.foldl_cons, ih, List.countP_cons, List.filter_cons]
    by_cases hw : w.wasteType = t
    · have hb : (w.wasteType == t) = true := beq_iff_eq.mpr hw
      have hstep : wasteByTypeStep acc w t =
          some ((acc t).getD 0 + w.quantity) := by
        show (if t = w.wasteType
              then some ((acc w.wasteType).getD 0 + w.quantity)
              else acc t) = _
        rw [if_pos hw.symm, hw]
      rw [hstep, hb]
      simp only [if_true, List.map_cons, List.sum_cons, Option.getD_some]
      by_cases hc : l.countP (fun w => w.wasteType == t) = 0
      · have hfil : l.filter (fun w => w.wasteType == t) = [] :=
          List.filter_eq_nil_iff.mpr (List.countP_eq_zero.mp hc)
        rw [if_pos hc, hfil]
        simp
      · rw [if_neg hc, if_neg (by omega)]
        rw [add_assoc]
    · have hb : (w.wasteType == t) = false := by
        simp only [beq_eq_false_iff_ne, ne_eq]; exact hw
      have hstep : wasteByTypeStep acc w t = acc t := by
        show (if t = w.wasteType
              then some ((acc w.wasteType).getD 0 + w.quantity)
              else acc t) = _
        exact if_neg (fun heq => hw heq.symm)
      rw [hstep, hb]
      simp

/-- C6: `getUserAnalytics` returns `wasteByType` mapping each waste type
occurring among the user's entries to the sum of the quantities of that
user's entries of that type (absent types are absent from the map),
`totalWasteEntries` equal to the number of the user's entries, and
point/footprint totals taken from the user row. -/
theorem getUserAnalytics_spec (db : DB) (userId : String) (t : String) :
    ((getUserAnalytics db userId).totalWasteEntries =
      (db.wasteEntries.filter (fun w => w.userId == userId)).length) ∧
    (0 < (db.wasteEntries.filter (fun w => w.userId == userId)).countP
        (fun w => w.wasteType == t) →
      (getUserAnalytics db userId).wasteByType t =
        some ((((db.wasteEntries.filter (fun w =>
            w.userId == userId)).filter
            (fun w => w.wasteType == t)).map WasteEntry.quantity).sum)) ∧
    ((db.wasteEntries.filter (fun w => w.userId == userId)).countP
        (fun w => w.wasteType == t) = 0 →
      (getUserAnalytics db userId).wasteByType t = none) ∧
    (∀ u, db.users.find? (fun x => x.id == userId) = some u →
      (getUserAnalytics db userId).totalEcoPoints = jsOr0 u.ecoPoints ∧
      (getUserAnalytics db userId).carbonFootprint =
        u.carbonFootprint.getD 0) := by
  have h := foldl_wasteByTypeStep_lookup
    (db.wasteEntries.filter (fun w => w.userId == userId))
    (fun _ => none) t
  refine ⟨rfl, fun hpos => ?_, fun hzero => ?_, fun u hu => ⟨?_, ?_⟩⟩
  · show (db.wasteEntries.filter (fun w => w.userId == userId)).foldl
        wasteByTypeStep (fun _ => none) t = _
    rw [h, if_neg (by omega)]
    simp
  · show (db.wasteEntries.filter (fun w => w.userId == userId)).foldl
        wasteByTypeStep (fun _ => none) t = none
    rw [h, if_pos hzero]
  · show jsOr0Opt ((db.users.find? (fun x => x.id == userId)).map
        (fun u => u.ecoPoints)) = jsOr0 u.ecoPoints
    rw [hu, Option.map_some']
    rfl
  · show ((db.users.find? (fun x => x.id == userId)).bind
        (fun u => u.carbonFootprint)).getD 0 = u.carbonFootprint.getD 0
    rw [hu, Option.some_bind]

/-- Witness for C6: on `sampleDb` (user `"u"` with plastic entries of
quantity 2 and 3), the analytics report 2 entries,
`wasteByType plastic = 5`, no `metal` key, 10 points and footprint 3. -/
theorem getUserAnalytics_spec_witness :
    (getUserAnalytics sampleDb "u").totalWasteEntries = 2 ∧
    (getUserAnalytics sampleDb "u").wasteByType "plastic" = some 5 ∧
    (getUserAnalytics sampleDb "u").wasteByType "metal" = none ∧
    (getUserAnalytics sampleDb "u").totalEcoPoints = 10 ∧
    (getUserAnalytics sampleDb "u").carbonFootprint = 3 := by
  have h := getUserAnalytics_spec sampleDb "u" "plastic"
  have hm := getUserAnalytics_spec sampleDb "u" "metal"
  have hplastic : (getUserAnalytics sampleDb "u").wasteByType "plastic" =
      some ((2 : ℚ) + (3 + 0)) := by
    rw [h.2.1 (by decide)]
    rfl
  refine ⟨h.1.trans (by rfl), ?_, hm.2.2.1 (by rfl),
    ((h.2.2.2 sampleUser (by rfl)).1).trans (by rfl),
    ((h.2.2.2 sampleUser (by rfl)).2).trans (by rfl)⟩
  rw [hplastic]
  norm_num

/-! ## C7 — redemption-code format -/

/-- Uppercasing any base-36 digit character yields an uppercase
alphanumeric character. -/
theorem isUpperAlnum_toUpper_base36 :
    ∀ d : Fin 36, isUpperAlnum (Char.toUpper (base36Char d)) := by decide

/-- Counterexample to C7 as stated: when `Math.random()` returns `0.5`
(base-36 representation `"0.i"`, a single fractional digit), a successful
`redeemReward` call generates the code `"ECO-0-I"` — its random suffix has
length 1, not 6, so the code does not match `ECO-<timestamp>-<random6>`. -/
theorem redeemReward_code_not_six :
    ((redeemReward sampleDb "u" 1 0 [(18 : Fin 36)]).1 =
      Except.ok { id := 20, userId := "u", rewardId := 1,
                  redemptionCode := "ECO-0-I", expiresAt := none,
                  redeemedAt := 0 }) ∧
    ¬ isEcoCode6Format "ECO-0-I" := by
  refine ⟨rfl, ?_⟩
  rintro ⟨tsStr, suffix, heq, hlen, -⟩
  have hl := congrArg String.length heq
  have h7 : ("ECO-0-I" : String).length = 7 := rfl
  have h4 : ("ECO-" : String).length = 4 := rfl
  have h1 : ("-" : String).length = 1 := rfl
  rw [String.length_append, String.length_append, String.length_append,
    h7, h4, h1, hlen] at hl
  omega

/-- C7 (amended): every redemption code has the shape
`ECO-<timestamp>-<suffix>` where the suffix is the uppercased first at
most 6 base-36 fractional digits of the random value: all its characters
are uppercase alphanumeric, its length is at most 6, and it is exactly 6
precisely when the random value's base-36 expansion has at least 6
fractional digits (shorter expansions — e.g. `0.5 → "0.i"` — give shorter
suffixes). -/
theorem redemptionCode_format (now : Nat) (digits : List (Fin 36)) :
    redemptionCode now digits =
      "ECO-" ++ toString now ++ "-" ++ String.mk (randomSuffix digits) ∧
    (randomSuffix digits).length ≤ 6 ∧
    (6 ≤ digits.length → (randomSuffix digits).length = 6) ∧
    ∀ c ∈ randomSuffix digits, isUpperAlnum c := by
  refine ⟨rfl, ?_, ?_, ?_⟩
  · cases digits with
    | nil => decide
    | cons d ds =>
      have hrs : randomSuffix (d :: ds) =
          (((d :: ds).map base36Char).take 6).map Char.toUpper := rfl
      rw [hrs, List.length_map, List.length_take]
      exact min_le_left _ _
  · intro h6
    cases digits with
    | nil => simp at h6
    | cons d ds =>
      have hrs : randomSuffix (d :: ds) =
          (((d :: ds).map base36Char).take 6).map Char.toUpper := rfl
      rw [hrs, List.length_map, List.length_take, List.length_map]
      exact min_eq_left h6
  · intro c hc
    cases digits with
    | nil => simp [randomSuffix, jsRandomToString36, jsSubstr] at hc
    | cons d ds =>
      have hrs : randomSuffix (d :: ds) =
          (((d :: ds).map base36Char).take 6).map Char.toUpper := rfl
      rw [hrs] at hc
      obtain ⟨c', hc', rfl⟩ := List.mem_map.mp hc
      obtain ⟨d', _, rfl⟩ := List.mem_map.mp (List.mem_of_mem_take hc')
      exact isUpperAlnum_toUpper_base36 d'

/-- Witness for C7 (amended): with timestamp 7 and seven fractional
digits, the generated code has a full 6-character uppercase alphanumeric
suffix. -/
theorem redemptionCode_format_witness :
    redemptionCode 7 [18, 0, 35, 9, 10, 11, 12] =
      "ECO-" ++ toString 7 ++ "-" ++
        String.mk (randomSuffix [18, 0, 35, 9, 10, 11, 12]) ∧
    (randomSuffix [18, 0, 35, 9, 10, 11, 12]).length ≤ 6 ∧
    (6 ≤ ([18, 0, 35, 9, 10, 11, 12] : List (Fin 36)).length →
      (randomSuffix [18, 0, 35, 9, 10, 11, 12]).length = 6) ∧
    ∀ c ∈ randomSuffix [18, 0, 35, 9, 10, 11, 12], isUpperAlnum c :=
  redemptionCode_format 7 [18, 0, 35, 9, 10, 11, 12]

/-! ## C9 — community-report status transitions -/

/-- Counterexample to C9 as stated: `sampleDb`'s report 1 has status
`resolved`; calling `updateCommunityReportStatus` with `"reported"` moves
it straight back to `reported`, a transition outside the claimed
reported → investigating → resolved order. -/
theorem updateCommunityReportStatus_backwards :
    ((sampleDb.communityReports.find? (fun r => r.id == 1)).map
        CommunityReport.status = some "resolved") ∧
    (((updateCommunityReportStatus sampleDb 1 "reported"
        5).2.communityReports.find? (fun r => r.id == 1)).map
        CommunityReport.status = some "reported") ∧
    ("resolved" ≠ "reported") ∧
    ¬ reportLifecycleStep "resolved" "reported" := by
  refine ⟨rfl, rfl, by decide, ?_⟩
  rintro (⟨h, -⟩ | ⟨h, -⟩) <;> exact absurd h (by decide)

/-- C9 (amended): `updateCommunityReportStatus` enforces no lifecycle
order: it overwrites the matched report's status with exactly the given
string, whatever the previous status was (so any transition, including
backwards ones, is possible through it), stamping `resolvedAt` when the
new status is `'resolved'` and leaving it unchanged otherwise. -/
theorem updateCommunityReportStatus_sets_any (db : DB) (id : Nat)
    (status : String) (now : Nat) (r : CommunityReport)
    (hr : db.communityReports.find? (fun x => x.id == id) = some r) :
    (updateCommunityReportStatus db id status
        now).2.communityReports.find? (fun x => x.id == id) =
      some { r with status := status,
                    resolvedAt := if status == "resolved" then some now
                                  else r.resolvedAt } := by
  have hp := List.find?_some hr
  show (db.communityReports.map (fun x =>
      if x.id == id
      then { x with status := status,
                    resolvedAt := if status == "resolved" then some now
                                  else x.resolvedAt }
      else x)).find? (fun x => x.id == id) = _
  rw [find?_map_congr (fun x => x.id == id)
    (fun x =>
      if x.id == id
      then { x with status := status,
                    resolvedAt := if status == "resolved" then some now
                                  else x.resolvedAt }
      else x)
    (fun a => by by_cases ha : a.id == id <;> simp [ha])
    db.communityReports, hr]
  exact congrArg some (if_pos hp)

/-- Witness for C9 (amended): setting report 1 of `sampleDb` (currently
`resolved`) to `investigating` yields exactly that status on the stored
row. -/
theorem updateCommunityReportStatus_sets_any_witness :
    (updateCommunityReportStatus sampleDb 1 "investigating"
        5).2.communityReports.find? (fun x => x.id == 1) =
      some { sampleReportRow with
               status := "investigating",
               resolvedAt := if ("investigating" : String) == "resolved"
                             then some 5
                             else sampleReportRow.resolvedAt } :=
  updateCommunityReportStatus_sets_any sampleDb 1 "investigating" 5
    sampleReportRow (by rfl)

/-! ## C8 — no `DatabaseStorage` operation deletes a row -/

/-- C8: no operation of `DatabaseStorage` ever deletes a row — every
operation only inserts new rows, reads rows, or updates existing rows, so
every row present before any operation is still present (under its key,
possibly with updated fields) after it. -/
theorem dbStorage_never_deletes (op : Op) (db : DB) :
    rowsPreserved db (applyOp op db) := by
  have hrefl : rowsPreserved db db :=
    ⟨keyStays_refl _ _, keyStays_refl _ _, keyStays_refl _ _,
     keyStays_refl _ _, keyStays_refl _ _, keyStays_refl _ _,
     keyStays_refl _ _, keyStays_refl _ _, keyStays_refl _ _,
     keyStays_refl _ _⟩
  cases op with
  | opGetUser id => exact hrefl
  | opGetUserWasteEntries userId => exact hrefl
  | opGetWasteEntriesByDateRange userId startDate endDate => exact hrefl
  | opGetUserPickupSchedules userId => exact hrefl
  | opGetCommunityReports limit => exact hrefl
  | opGetUpcomingCleanupEvents now => exact hrefl
  | opGetActiveChallenges => exact hrefl
  | opGetUserChallengeProgress userId => exact hrefl
  | opGetAvailableRewards => exact hrefl
  | opGetUserRewards userId => exact hrefl
  | opGetUserAnalytics userId => exact hrefl
  | opUpsertUser userData now =>
    show rowsPreserved db (upsertUser db userData now).2
    unfold upsertUser
    split
    · exact ⟨keyStays_map _ _ _
        (fun a => by by_cases ha : a.id == userData.id <;> simp [ha]),
        keyStays_refl _ _, keyStays_refl _ _, keyStays_refl _ _,
        keyStays_refl _ _, keyStays_refl _ _, keyStays_refl _ _,
        keyStays_refl _ _, keyStays_refl _ _, keyStays_refl _ _⟩
    · exact ⟨keyStays_append _ _ _, keyStays_refl _ _, keyStays_refl _ _,
        keyStays_refl _ _, keyStays_refl _ _, keyStays_refl _ _,
        keyStays_refl _ _, keyStays_refl _ _, keyStays_refl _ _,
        keyStays_refl _ _⟩
  | opCreateWasteEntry entry now =>
    exact ⟨keyStays_map _ _ _
        (fun a => by by_cases ha : a.id == entry.userId <;> simp [ha]),
      keyStays_append _ _ _, keyStays_refl _ _, keyStays_refl _ _,
      keyStays_refl _ _, keyStays_refl _ _, keyStays_refl _ _,
      keyStays_refl _ _, keyStays_refl _ _, keyStays_refl _ _⟩
  | opCreatePickupSchedule schedule =>
    exact ⟨keyStays_refl _ _, keyStays_refl _ _, keyStays_append _ _ _,
      keyStays_refl _ _, keyStays_refl _ _, keyStays_refl _ _,
      keyStays_refl _ _, keyStays_refl _ _, keyStays_refl _ _,
      keyStays_refl _ _⟩
  | opUpdatePickupScheduleStatus id status now =>
    exact ⟨keyStays_refl _ _, keyStays_refl _ _,
      keyStays_map _ _ _
        (fun a => by by_cases ha : a.id == id <;> simp [ha]),
      keyStays_refl _ _, keyStays_refl _ _, keyStays_refl _ _,
      keyStays_refl _ _, keyStays_refl _ _, keyStays_refl _ _,
      keyStays_refl _ _⟩
  | opCreateCommunityReport report now =>
    exact ⟨keyStays_refl _ _, keyStays_refl _ _, keyStays_refl _ _,
      keyStays_append _ _ _, keyStays_refl _ _, keyStays_refl _ _,
      keyStays_refl _ _, keyStays_refl _ _, keyStays_refl _ _,
      keyStays_refl _ _⟩
  | opUpdateCommunityReportStatus id status now =>
    exact ⟨keyStays_refl _ _, keyStays_refl _ _, keyStays_refl _ _,
      keyStays_map _ _ _
        (fun a => by by_cases ha : a.id == id <;> simp [ha]),
      keyStays_refl _ _, keyStays_refl _ _, keyStays_refl _ _,
      keyStays_refl _ _, keyStays_refl _ _, keyStays_refl _ _⟩
  | opCreateCleanupEvent event =>
    exact ⟨keyStays_refl _ _, keyStays_refl _ _, keyStays_refl _ _,
      keyStays_refl _ _, keyStays_append _ _ _, keyStays_refl _ _,
      keyStays_refl _ _, keyStays_refl _ _, keyStays_refl _ _,
      keyStays_refl _ _⟩
  | opJoinCleanupEvent eventId userId =>
    refine ⟨keyStays_refl _ _, keyStays_refl _ _, keyStays_refl _ _,
      keyStays_refl _ _, ?_, ?_, keyStays_refl _ _, keyStays_refl _ _,
      keyStays_refl _ _, keyStays_refl _ _⟩
    · exact keyStays_map _ _ _
        (fun a => by by_cases ha : a.id == eventId <;> simp [ha])
    · show keyStays (fun p => (p.eventId, p.userId)) db.eventParticipants
        (if db.eventParticipants.any (fun p =>
            p.eventId == eventId && p.userId == userId)
         then db.eventParticipants
         else db.eventParticipants ++
           [{ eventId := eventId, userId := userId }])
      split
      · exact keyStays_refl _ _
      · exact keyStays_append _ _ _
  | opUpdateChallengeProgress userId challengeId progress now =>
    show rowsPreserved db
      (updateChallengeProgress db userId challengeId progress now)
    unfold updateChallengeProgress
    split
    · exact ⟨keyStays_refl _ _, keyStays_refl _ _, keyStays_refl _ _,
        keyStays_refl _ _, keyStays_refl _ _, keyStays_refl _ _,
        keyStays_refl _ _,
        keyStays_map _ _ _ (fun a => by
          by_cases ha : a.userId == userId && a.challengeId == challengeId <;>
            simp [ha]),
        keyStays_refl _ _, keyStays_refl _ _⟩
    · exact ⟨keyStays_refl _ _, keyStays_refl _ _, keyStays_refl _ _,
        keyStays_refl _ _, keyStays_refl _ _, keyStays_refl _ _,
        keyStays_refl _ _, keyStays_append _ _ _, keyStays_refl _ _,
        keyStays_refl _ _⟩
  | opRedeemReward userId rewardId now digits =>
    show rowsPreserved db (redeemReward db userId rewardId now digits).2
    cases hr : db.rewards.find? (fun r => r.id == rewardId) with
    | none =>
      rw [redeemReward_notfound_eq db userId rewardId now digits hr]
      exact hrefl
    | some reward =>
      cases hu : db.users.find? (fun u => u.id == userId) with
      | none =>
        rw [redeemReward_nouser_eq db userId rewardId now digits reward
          hr hu]
        exact hrefl
      | some user =>
        by_cases hc : jsOr0 user.ecoPoints < reward.ecoPointsCost
        · rw [redeemReward_poor_eq db userId rewardId now digits reward
            user hr hu hc]
          exact hrefl
        · rw [redeemReward_success_eq db userId rewardId now digits reward
            user hr hu hc]
          exact ⟨keyStays_map _ _ _
              (fun a => by by_cases ha : a.id == userId <;> simp [ha]),
            keyStays_refl _ _, keyStays_refl _ _, keyStays_refl _ _,
            keyStays_refl _ _, keyStays_refl _ _, keyStays_refl _ _,
            keyStays_refl _ _, keyStays_refl _ _, keyStays_append _ _ _⟩

/-- Witness for C8: a duplicate join on `sampleDb` (an operation whose
insert hits conflict-skip) still preserves every pre-existing row. -/
theorem dbStorage_never_deletes_witness :
    rowsPreserved (joinCleanupEvent sampleDb 1 "u")
      (applyOp (Op.opJoinCleanupEvent 1 "u")
        (joinCleanupEvent sampleDb 1 "u")) :=
  dbStorage_never_deletes (Op.opJoinCleanupEvent 1 "u")
    (joinCleanupEvent sampleDb 1 "u")
